import Mathlib

/-!
Shallow embedding of the tmtrack task-tracking service core:
JSON-like document values, the task validator, the auth resolvers,
and the per-endpoint orchestrators, translated from the Python source
(src/app/api/tasks.py, src/app/api/categories.py, src/app/auth.py,
src/app/api/utils.py, src/app/services/mongo_service.py).
-/

namespace Tmtrack

/-- Elements of a JSON list value (the service only ever inspects flat
lists — the categories list — so list elements are scalars here). -/
inductive Atom where
  | astr (s : String)
  | aint (n : Int)
  | afloat (q : Int)
  | abool (b : Bool)
  | anone
deriving DecidableEq, Repr

def Atom.isStr : Atom → Bool
  | .astr _ => true
  | _ => false

/-- Runtime values of the JSON-ish documents the service handles.
Python runtime types are modelled as tags; `vdatetime` stands for the
datetime objects the server assigns to created_at / updated_at. -/
inductive Value where
  | vstr (s : String)
  | vint (n : Int)
  | vfloat (q : Int)
  | vbool (b : Bool)
  | vnone
  | vlist (xs : List Atom)
  | vdatetime (t : Nat)
deriving DecidableEq, Repr

/-- Python type name of a value, as used in error messages. -/
def typeName : Value → String
  | .vstr _ => "str"
  | .vint _ => "int"
  | .vfloat _ => "float"
  | .vbool _ => "bool"
  | .vnone => "NoneType"
  | .vlist _ => "list"
  | .vdatetime _ => "datetime"

/-- The two schema types appearing in TASK_FIELDS. -/
inductive PyType where
  | tstr
  | tfloat
deriving DecidableEq, Repr

def PyType.name : PyType → String
  | .tstr => "str"
  | .tfloat => "float"

/-- Python isinstance check against a schema type. -/
def isinstance (v : Value) : PyType → Bool
  | .tstr => match v with | .vstr _ => true | _ => false
  | .tfloat => match v with | .vfloat _ => true | _ => false

def isStrV : Value → Bool
  | .vstr _ => true
  | _ => false

def isListV : Value → Bool
  | .vlist _ => true
  | _ => false

def listItems : Value → List Atom
  | .vlist xs => xs
  | _ => []

/-! Association-list model of a Python dict: unique keys, insertion order. -/

def dGet {α : Type} : List (String × α) → String → Option α
  | [], _ => none
  | (k, v) :: rest, key => if k = key then some v else dGet rest key

def dContains {α : Type} (d : List (String × α)) (k : String) : Bool :=
  (dGet d k).isSome

/-- Assignment d[key] = v: replace in place, else append (dict semantics). -/
def dSet {α : Type} : List (String × α) → String → α → List (String × α)
  | [], key, v => [(key, v)]
  | (k, w) :: rest, key, v =>
      if k = key then (k, v) :: rest else (k, w) :: dSet rest key v

/-- del d[key] (removes every entry at the key; identical on unique-key dicts). -/
def dErase {α : Type} : List (String × α) → String → List (String × α)
  | [], _ => []
  | (k, v) :: rest, key =>
      if k = key then dErase rest key else (k, v) :: dErase rest key

abbrev Doc := List (String × Value)

/-- Mongo $set-style field merge of upd into d. -/
def dMerge (d : Doc) (upd : Doc) : Doc :=
  upd.foldl (fun acc p => dSet acc p.1 p.2) d

/-! Model of datetime.datetime.strptime(s, "%Y-%m-%d") for ASCII-digit strings:
the compiled pattern is four digits, a dash, month (1[0-2]|0[1-9]|[1-9]),
a dash, day (3[01]|[12]d|0[1-9]|[1-9]), anchored at both ends, followed by
the datetime constructor's calendar validation. -/

def digitVal (c : Char) : Nat := c.toNat - 48

def isAsciiDigit (c : Char) : Bool := decide ('0' ≤ c) && decide (c ≤ '9')

/-- Month alternatives of the strptime regex, in regex order, each with the
remaining characters. -/
def monthAlts : List Char → List (Nat × List Char)
  | a :: b :: rest =>
      (if a = '1' && decide ('0' ≤ b) && decide (b ≤ '2')
        then [(10 + digitVal b, rest)] else []) ++
      (if a = '0' && decide ('1' ≤ b) && decide (b ≤ '9')
        then [(digitVal b, rest)] else []) ++
      (if decide ('1' ≤ a) && decide (a ≤ '9')
        then [(digitVal a, b :: rest)] else [])
  | a :: rest =>
      if decide ('1' ≤ a) && decide (a ≤ '9') then [(digitVal a, rest)] else []
  | [] => []

/-- Day alternatives of the strptime regex, in regex order. -/
def dayAlts : List Char → List (Nat × List Char)
  | a :: b :: rest =>
      (if a = '3' && (b = '0' || b = '1')
        then [(30 + digitVal b, rest)] else []) ++
      (if (a = '1' || a = '2') && isAsciiDigit b
        then [(10 * digitVal a + digitVal b, rest)] else []) ++
      (if a = '0' && decide ('1' ≤ b) && decide (b ≤ '9')
        then [(digitVal b, rest)] else []) ++
      (if decide ('1' ≤ a) && decide (a ≤ '9')
        then [(digitVal a, b :: rest)] else [])
  | a :: rest =>
      if decide ('1' ≤ a) && decide (a ≤ '9') then [(digitVal a, rest)] else []
  | [] => []

/-- Regex match of the whole string against %Y-%m-%d (with backtracking over
the month/day alternatives), yielding year, month, day. -/
def matchYmd (s : String) : Option (Nat × Nat × Nat) :=
  match s.toList with
  | y1 :: y2 :: y3 :: y4 :: '-' :: rest =>
      if isAsciiDigit y1 && isAsciiDigit y2 && isAsciiDigit y3 && isAsciiDigit y4 then
        let y := 1000 * digitVal y1 + 100 * digitVal y2 + 10 * digitVal y3 + digitVal y4
        (monthAlts rest).findSome? fun mr =>
          match mr.2 with
          | '-' :: rest2 =>
              (dayAlts rest2).findSome? fun dr =>
                if dr.2 = [] then some (y, mr.1, dr.1) else none
          | _ => none
      else none
  | _ => none

def isLeap (y : Nat) : Bool :=
  (y % 4 = 0 && y % 100 ≠ 0) || y % 400 = 0

def daysInMonth (y m : Nat) : Nat :=
  if m = 2 then (if isLeap y then 29 else 28)
  else if m = 4 || m = 6 || m = 9 || m = 11 then 30
  else 31

/-- strptime(s, "%Y-%m-%d") succeeds: regex match plus the datetime
constructor's range checks (year ≥ 1, day within the month). -/
def strptimeYmd (s : String) : Bool :=
  match matchYmd s with
  | some (y, m, d) => decide (1 ≤ y) && decide (d ≤ daysInMonth y m)
  | none => false

/-! The task schema and validator (src/app/api/tasks.py). -/

/-- TASK_FIELDS: name, declared type, required flag, in source order. -/
def TASK_FIELDS : List (String × PyType × Bool) :=
  [("task_id", .tstr, true),
   ("userid", .tstr, true),
   ("date", .tstr, true),
   ("task_name", .tstr, true),
   ("category", .tstr, true),
   ("expected_hours", .tfloat, true),
   ("actual_hours", .tfloat, false),
   ("description", .tstr, false)]

def TASK_FIELD_NAMES : List String := TASK_FIELDS.map (·.1)

def INTERNAL_FIELDS : List String := ["created_at", "updated_at"]

abbrev Errors := List (String × String)

def requiredMsg (f : String) : String :=
  "\x27" ++ f ++ "\x27 is a required field."

def typeMsg (f : String) (ty : PyType) (v : Value) : String :=
  "\x27" ++ f ++ "\x27 must be of type " ++ ty.name ++ ", but got " ++ typeName v ++ "."

def fmtMsg (f : String) : String :=
  "\x27" ++ f ++ "\x27 must be in YYYY-MM-DD format."

def strptimeTypeError (v : Value) : String :=
  "TypeError: strptime() argument 1 must be str, not " ++ typeName v

/-- One iteration of the validation loop over TASK_FIELDS.  The date check
calls strptime unconditionally when the field is present; for a non-string
value strptime raises TypeError, which the source catches only as ValueError,
so the exception escapes (modelled as the .error case). -/
def checkField (data : Doc) (is_create : Bool) (errors : Errors)
    (f : String × PyType × Bool) : Except String Errors :=
  if is_create && f.2.2 && !(dContains data f.1) then
    if f.1 ≠ "task_id" then .ok (dSet errors f.1 (requiredMsg f.1)) else .ok errors
  else
    match dGet data f.1 with
    | none => .ok errors
    | some v =>
        let errors :=
          if !(isinstance v f.2.1) then dSet errors f.1 (typeMsg f.1 f.2.1 v) else errors
        if f.1 = "date" && f.2.1 = PyType.tstr then
          match v with
          | .vstr s => if strptimeYmd s then .ok errors else .ok (dSet errors f.1 (fmtMsg f.1))
          | _ => .error (strptimeTypeError v)
        else .ok errors

/-- validate_task_data(data, is_create): the per-field error mapping, or the
uncaught exception raised inside the loop. -/
def validateTaskData (data : Doc) (is_create : Bool) : Except String Errors :=
  TASK_FIELDS.foldlM (checkField data is_create) []

/-! Auth data and resolvers (src/app/auth.py, src/app/api/utils.py). -/

structure AuthRecord where
  userid : String
  auth_token : String
deriving DecidableEq, Repr

structure GroupRecord where
  group_name : String
  userids : List String
deriving DecidableEq, Repr

/-- The token→userid dict comprehension of _load_auth_data: dict assignment
in list order, so a duplicated token keeps the value of its last record. -/
def buildTokenMap (creds : List AuthRecord) : List (String × String) :=
  creds.foldl (fun m r => dSet m r.auth_token r.userid) []

def addUserGroup (m : List (String × List String)) (g u : String) :
    List (String × List String) :=
  dSet m u ((dGet m u).getD [] ++ [g])

/-- The userid→groups inversion of _load_auth_data. -/
def buildGroupsMap (authz : List GroupRecord) : List (String × List String) :=
  authz.foldl (fun m rec => rec.userids.foldl (fun m u => addUserGroup m rec.group_name u) m) []

/-- get_userid_from_token: falsy token, or token absent from the map, → guest. -/
def get_userid_from_token (m : List (String × String)) (tok : Option String) : String :=
  match tok with
  | none => "guest"
  | some t => if t = "" then "guest" else (dGet m t).getD "guest"

/-- get_groups_from_userid: falsy or unknown userid → Guests only. -/
def get_groups_from_userid (m : List (String × List String)) (u : String) : List String :=
  if u = "" then ["Guests"] else (dGet m u).getD ["Guests"]

/-- Token extraction of get_auth_info_from_request: the last space-separated
piece of a header that starts with the Bearer marker, else no token. -/
def extract_token (header : Option String) : Option String :=
  match header with
  | none => none
  | some h => if h.startsWith "Bearer " then some ((h.splitOn " ").getLastD "") else none

/-- get_auth_info_from_request: resolved (userid, groups) for a request. -/
def get_auth_info_from_request (creds : List AuthRecord) (authz : List GroupRecord)
    (header : Option String) : String × List String :=
  let userid := get_userid_from_token (buildTokenMap creds) (extract_token header)
  (userid, get_groups_from_userid (buildGroupsMap authz) userid)

/-- Modelled from the spec: the function get_userids_in_groups is imported by
the task-listing endpoint from the auth module but is absent from the auth
source file; section 4.3 of the design describes it as computing the union,
over every group in the caller's groups, of that group's member userids,
from the group→members records. -/
def get_userids_in_groups (authz : List GroupRecord) (groups : List String) : List String :=
  (authz.filter (fun g => g.group_name ∈ groups)).foldr (fun g acc => g.userids ++ acc) []

/-! The store model and the endpoint orchestrators. -/

structure DB where
  tasks : List Doc
  categories : Option Doc
deriving DecidableEq, Repr

/-- find_one({"task_id": tid}): first stored document whose task_id field
equals the string tid. -/
def findOne (tasks : List Doc) (tid : String) : Option Doc :=
  tasks.find? (fun t => decide (dGet t "task_id" = some (.vstr tid)))

/-- update_one({"task_id": tid}, {"$set": upd}): merge into the first match;
the returned count is modified_count — zero when nothing matched or when the
merge left the matched document unchanged. -/
def updateOneAux : List Doc → String → Doc → Nat × List Doc
  | [], _, _ => (0, [])
  | t :: rest, tid, upd =>
      if dGet t "task_id" = some (.vstr tid) then
        let t' := dMerge t upd
        ((if t' = t then 0 else 1), t' :: rest)
      else
        let r := updateOneAux rest tid upd
        (r.1, t :: r.2)

/-- find({"userid": {"$in": userids}}). -/
def mongo_get_all_tasks (tasks : List Doc) (userids : List String) : List Doc :=
  tasks.filter (fun t =>
    match dGet t "userid" with
    | some v => userids.any (fun u => decide (v = .vstr u))
    | none => false)

inductive Resp where
  | errMsg (code : Nat) (msg : String)
  | errFields (code : Nat) (msg : String) (errors : Errors)
  | created (task_id : String)
  | okUpd (task_id : String)
  | okTask (t : Doc)
  | okTasks (ts : List Doc)
  | okCat (matched : Nat)
  | raised (e : String)
deriving DecidableEq, Repr

def arbMsg (k : String) : String :=
  "Arbitrary attribute \x27" ++ k ++ "\x27 must be a string."

def notFoundMsg (tid : String) : String :=
  "Task with task_id \x27" ++ tid ++ "\x27 not found or no changes made."

def badArb (p : String × Value) : Bool :=
  !(decide (p.1 ∈ TASK_FIELD_NAMES)) && !(decide (p.1 ∈ INTERNAL_FIELDS)) && !(isStrV p.2)

/-- The first key of the arbitrary-attribute loop that triggers rejection. -/
def firstBadArb (d : Doc) : Option String :=
  (d.find? badArb).map (·.1)

/-- create_task: body (None for an absent/null body), the fresh uuid, and the
two successive clock readings for created_at and updated_at. -/
def create_task (db : DB) (body : Option Doc) (freshId : String) (t1 t2 : Nat) :
    Resp × DB :=
  match body with
  | none => (.errMsg 400 "Request must be JSON", db)
  | some data =>
      if data = [] then (.errMsg 400 "Request must be JSON", db)
      else
        match validateTaskData data true with
        | .error e => (.raised e, db)
        | .ok errs =>
            if errs ≠ [] then (.errFields 400 "Validation failed" errs, db)
            else
              let data := dSet data "task_id" (.vstr freshId)
              let data := dSet data "created_at" (.vdatetime t1)
              let data := dSet data "updated_at" (.vdatetime t2)
              match firstBadArb data with
              | some k => (.errMsg 400 (arbMsg k), db)
              | none => (.created freshId, { db with tasks := db.tasks ++ [data] })

/-- modify_task: tid from the URL, body, and the clock reading for updated_at. -/
def modify_task (db : DB) (tid : String) (body : Option Doc) (t : Nat) : Resp × DB :=
  match body with
  | none => (.errMsg 400 "Request must be JSON", db)
  | some data =>
      if data = [] then (.errMsg 400 "Request must be JSON", db)
      else
        let data := dErase data "task_id"
        match validateTaskData data false with
        | .error e => (.raised e, db)
        | .ok errs =>
            if errs ≠ [] then (.errFields 400 "Validation failed" errs, db)
            else
              let data := dSet data "updated_at" (.vdatetime t)
              match firstBadArb data with
              | some k => (.errMsg 400 (arbMsg k), db)
              | none =>
                  let r := updateOneAux db.tasks tid data
                  if r.1 = 0 then (.errMsg 404 (notFoundMsg tid), { db with tasks := r.2 })
                  else (.okUpd tid, { db with tasks := r.2 })

/-- get_task: lookup by task_id, 404 when absent. -/
def get_task (db : DB) (tid : String) : Resp :=
  match findOne db.tasks tid with
  | some t => .okTask t
  | none => .errMsg 404 "Task not found"

/-- get_all_tasks: the listing endpoint, filtering by the userids in the
caller's groups. -/
def get_all_tasks (db : DB) (authz : List GroupRecord) (groups : List String) : Resp :=
  .okTasks (mongo_get_all_tasks db.tasks (get_userids_in_groups authz groups))

/-- The listing endpoint including auth resolution from the request header. -/
def list_tasks_endpoint (db : DB) (creds : List AuthRecord) (authz : List GroupRecord)
    (header : Option String) : Resp :=
  get_all_tasks db authz (get_auth_info_from_request creds authz header).2

/-- update_categories (PUT /categories): validates the categories key, then
replace_one({}, data, upsert=True) on the singleton document (the whole body
becomes the new document). -/
def update_categories (db : DB) (body : Option Doc) : Resp × DB :=
  match body with
  | none => (.errMsg 400 "Request must be JSON", db)
  | some data =>
      if data = [] then (.errMsg 400 "Request must be JSON", db)
      else if !(dContains data "categories") then
        (.errMsg 400 "Request body must contain a \x27categories\x27 key.", db)
      else
        let category_list := (dGet data "categories").getD .vnone
        if !(isListV category_list) then
          (.errMsg 400 "The \x27categories\x27 value must be a list.", db)
        else if !((listItems category_list).all Atom.isStr) then
          (.errMsg 400 "All items in the \x27categories\x27 list must be strings.", db)
        else
          let matched := if db.categories.isSome then 1 else 0
          (.okCat matched, { db with categories := some data })

/-- The document persisted by create_task: the body with the fresh task_id and
the two timestamp clock readings assigned. -/
def newTaskDoc (data : Doc) (fid : String) (t1 t2 : Nat) : Doc :=
  dSet (dSet (dSet data "task_id" (.vstr fid)) "created_at" (.vdatetime t1))
    "updated_at" (.vdatetime t2)

/-- The merge document persisted by modify_task: the body with any task_id
dropped and updated_at refreshed. -/
def modDoc (data : Doc) (t : Nat) : Doc :=
  dSet (dErase data "task_id") "updated_at" (.vdatetime t)

/-- Valid creation payload used by the C3 counterexample and witness. -/
def C3body : Doc :=
  [("userid", .vstr "u"), ("date", .vstr "2023-01-01"),
   ("task_name", .vstr "n"), ("category", .vstr "c"), ("expected_hours", .vfloat 2)]

/-- The document the C3 counterexample expects in the store. -/
def C3stored : Doc :=
  C3body ++ [("task_id", .vstr "id1"), ("created_at", .vdatetime 0), ("updated_at", .vdatetime 1)]

/-- Valid creation payload with a non-string extension field, used by the C8
witness. -/
def C8data : Doc :=
  [("userid", .vstr "u"), ("date", .vstr "2023-01-01"), ("task_name", .vstr "n"),
   ("category", .vstr "c"), ("expected_hours", .vfloat 2), ("extra", .vint 7)]

/-! Dictionary lemmas. -/

theorem dGet_dSet_self {α : Type} (d : List (String × α)) (k : String) (v : α) :
    dGet (dSet d k v) k = some v := by
  induction d with
  | nil => simp [dSet, dGet]
  | cons p rest ih =>
      obtain ⟨a, b⟩ := p
      by_cases h : a = k
      · simp [dSet, dGet, h]
      · simp [dSet, dGet, h, ih]

theorem dGet_dSet_ne {α : Type} (d : List (String × α)) (k k' : String) (v : α)
    (h : k' ≠ k) : dGet (dSet d k v) k' = dGet d k' := by
  induction d with
  | nil => simp [dSet, dGet, Ne.symm h]
  | cons p rest ih =>
      obtain ⟨a, b⟩ := p
      by_cases ha : a = k
      · have hak' : a ≠ k' := fun hh => h (ha ▸ hh).symm
        simp [dSet, dGet, ha, hak', Ne.symm h]
      · by_cases hk' : a = k'
        · simp [dSet, dGet, ha, hk', h]
        · simp [dSet, dGet, ha, hk', ih]

theorem dSet_ne_nil {α : Type} (d : List (String × α)) (k : String) (v : α) :
    dSet d k v ≠ [] := by
  cases d with
  | nil => simp [dSet]
  | cons p rest =>
      obtain ⟨a, b⟩ := p
      by_cases h : a = k <;> simp [dSet, h]

theorem dGet_dErase_self {α : Type} (d : List (String × α)) (k : String) :
    dGet (dErase d k) k = none := by
  induction d with
  | nil => rfl
  | cons p rest ih =>
      obtain ⟨a, b⟩ := p
      by_cases h : a = k
      · simp [dErase, h, ih]
      · simp [dErase, dGet, h, ih]

theorem dGet_dErase_ne {α : Type} (d : List (String × α)) (k k' : String)
    (h : k' ≠ k) : dGet (dErase d k) k' = dGet d k' := by
  induction d with
  | nil => rfl
  | cons p rest ih =>
      obtain ⟨a, b⟩ := p
      by_cases ha : a = k
      · have hak' : a ≠ k' := fun hh => h (ha ▸ hh).symm
        simp [dErase, dGet, ha, hak', Ne.symm h, ih]
      · by_cases hk' : a = k'
        · simp [dErase, dGet, ha, hk', h]
        · simp [dErase, dGet, ha, hk', ih]

theorem dErase_dSet {α : Type} (d : List (String × α)) (k : String) (v : α) :
    dErase (dSet d k v) k = dErase d k := by
  induction d with
  | nil => simp [dSet, dErase]
  | cons p rest ih =>
      obtain ⟨a, b⟩ := p
      by_cases h : a = k
      · simp [dSet, dErase, h]
      · simp [dSet, dErase, h, ih]

theorem dErase_dErase {α : Type} (d : List (String × α)) (k : String) :
    dErase (dErase d k) k = dErase d k := by
  induction d with
  | nil => rfl
  | cons p rest ih =>
      obtain ⟨a, b⟩ := p
      by_cases h : a = k
      · simp [dErase, h, ih]
      · simp [dErase, h, ih]

theorem dGet_eq_none_iff {α : Type} (d : List (String × α)) (k : String) :
    dGet d k = none ↔ ∀ p ∈ d, p.1 ≠ k := by
  induction d with
  | nil => simp [dGet]
  | cons p rest ih =>
      obtain ⟨a, b⟩ := p
      by_cases h : a = k
      · simp [dGet, h]
      · simp [dGet, h, ih]

theorem dGet_dMerge_none (d upd : Doc) (k : String) (h : dGet upd k = none) :
    dGet (dMerge d upd) k = dGet d k := by
  have hall : ∀ p ∈ upd, p.1 ≠ k := (dGet_eq_none_iff upd k).mp h
  clear h
  induction upd generalizing d with
  | nil => rfl
  | cons p rest ih =>
      simp only [dMerge, List.foldl] at *
      rw [ih (dSet d p.1 p.2) (fun q hq => hall q (List.mem_cons_of_mem _ hq)),
        dGet_dSet_ne _ _ _ _ (fun hh => hall p (List.mem_cons_self _ _) hh.symm)]

/-! Store and orchestrator lemmas. -/

theorem create_task_eq (db : DB) (data : Doc) (fid : String) (t1 t2 : Nat) :
    create_task db (some data) fid t1 t2 =
      if data = [] then (.errMsg 400 "Request must be JSON", db)
      else
        match validateTaskData data true with
        | .error e => (.raised e, db)
        | .ok errs =>
            if errs ≠ [] then (.errFields 400 "Validation failed" errs, db)
            else
              match firstBadArb (newTaskDoc data fid t1 t2) with
              | some k => (.errMsg 400 (arbMsg k), db)
              | none =>
                  (.created fid, { db with tasks := db.tasks ++ [newTaskDoc data fid t1 t2] }) :=
  rfl

theorem modify_task_eq (db : DB) (tid : String) (data : Doc) (t : Nat) :
    modify_task db tid (some data) t =
      if data = [] then (.errMsg 400 "Request must be JSON", db)
      else
        match validateTaskData (dErase data "task_id") false with
        | .error e => (.raised e, db)
        | .ok errs =>
            if errs ≠ [] then (.errFields 400 "Validation failed" errs, db)
            else
              match firstBadArb (modDoc data t) with
              | some k => (.errMsg 400 (arbMsg k), db)
              | none =>
                  if (updateOneAux db.tasks tid (modDoc data t)).1 = 0 then
                    (.errMsg 404 (notFoundMsg tid),
                     { db with tasks := (updateOneAux db.tasks tid (modDoc data t)).2 })
                  else
                    (.okUpd tid,
                     { db with tasks := (updateOneAux db.tasks tid (modDoc data t)).2 }) :=
  rfl

theorem updateOneAux_cons_pos (hd : Doc) (rest : List Doc) (tid : String) (upd : Doc)
    (h : dGet hd "task_id" = some (.vstr tid)) :
    updateOneAux (hd :: rest) tid upd =
      ((if dMerge hd upd = hd then 0 else 1), dMerge hd upd :: rest) := by
  simp only [updateOneAux, if_pos h]

theorem updateOneAux_cons_neg (hd : Doc) (rest : List Doc) (tid : String) (upd : Doc)
    (h : ¬ dGet hd "task_id" = some (.vstr tid)) :
    updateOneAux (hd :: rest) tid upd =
      ((updateOneAux rest tid upd).1, hd :: (updateOneAux rest tid upd).2) := by
  simp only [updateOneAux, if_neg h]

theorem findOne_cons_pos (hd : Doc) (rest : List Doc) (tid : String)
    (h : dGet hd "task_id" = some (.vstr tid)) :
    findOne (hd :: rest) tid = some hd := by
  rw [findOne]
  exact List.find?_cons_of_pos _ (by simp [h])

theorem findOne_cons_neg (hd : Doc) (rest : List Doc) (tid : String)
    (h : ¬ dGet hd "task_id" = some (.vstr tid)) :
    findOne (hd :: rest) tid = findOne rest tid := by
  rw [findOne, findOne]
  exact List.find?_cons_of_neg _ (by simp [h])

theorem updateOneAux_zero_iff (tasks : List Doc) (tid : String) (upd : Doc) :
    (updateOneAux tasks tid upd).1 = 0 ↔
      (findOne tasks tid = none ∨
       ∃ d, findOne tasks tid = some d ∧ dMerge d upd = d) := by
  induction tasks with
  | nil => simp [updateOneAux, findOne]
  | cons hd rest ih =>
      by_cases h : dGet hd "task_id" = some (.vstr tid)
      · rw [updateOneAux_cons_pos _ _ _ _ h, findOne_cons_pos _ _ _ h]
        by_cases hmerge : dMerge hd upd = hd
        · rw [if_pos hmerge]
          exact iff_of_true rfl (Or.inr ⟨hd, rfl, hmerge⟩)
        · rw [if_neg hmerge]
          refine iff_of_false (by simp) ?_
          rintro (hnone | ⟨d, hd', hm'⟩)
          · cases hnone
          · injection hd' with he
            subst he
            exact hmerge hm'
      · rw [updateOneAux_cons_neg _ _ _ _ h, findOne_cons_neg _ _ _ h]
        exact ih

theorem updateOneAux_map_key (tasks : List Doc) (tid : String) (upd : Doc) (k : String)
    (h : dGet upd k = none) :
    (updateOneAux tasks tid upd).2.map (fun d => dGet d k)
      = tasks.map (fun d => dGet d k) := by
  induction tasks with
  | nil => rfl
  | cons hd rest ih =>
      by_cases hm : dGet hd "task_id" = some (.vstr tid)
      · rw [updateOneAux_cons_pos _ _ _ _ hm]
        simp only [List.map]
        rw [dGet_dMerge_none _ _ _ h]
      · rw [updateOneAux_cons_neg _ _ _ _ hm]
        simp only [List.map]
        rw [ih]

/-! Auth lemmas. -/

theorem dGet_foldl_token (creds : List AuthRecord) (m : List (String × String)) (t : String) :
    dGet (creds.foldl (fun m r => dSet m r.auth_token r.userid) m) t =
      Option.or ((creds.reverse.find? (fun c => decide (c.auth_token = t))).map
          (fun r => r.userid))
        (dGet m t) := by
  induction creds generalizing m with
  | nil => simp [Option.or]
  | cons c cs ih =>
      simp only [List.foldl, List.reverse_cons]
      rw [ih, List.find?_append]
      cases hf : cs.reverse.find? (fun c => decide (c.auth_token = t)) with
      | some r => simp [Option.or]
      | none =>
          simp only [Option.map, Option.or]
          by_cases hc : c.auth_token = t
          · have : List.find? (fun c => decide (c.auth_token = t)) [c] = some c := by
              simp [List.find?, hc]
            rw [this, ← hc, dGet_dSet_self]
          · have : List.find? (fun c => decide (c.auth_token = t)) [c] = none := by
              simp [List.find?, hc]
            rw [this, dGet_dSet_ne _ _ _ _ (fun hh => hc hh.symm)]

theorem buildTokenMap_last (creds : List AuthRecord) (t : String) :
    dGet (buildTokenMap creds) t =
      (creds.reverse.find? (fun c => decide (c.auth_token = t))).map (fun r => r.userid) := by
  rw [buildTokenMap, dGet_foldl_token]
  cases (creds.reverse.find? (fun c => decide (c.auth_token = t))).map (fun r => r.userid) with
  | some r => rfl
  | none => rfl

theorem dGet_foldl_addUserGroup (us : List String) (g u : String)
    (m : List (String × List String)) (hu : u ∉ us) :
    dGet (us.foldl (fun m v => addUserGroup m g v) m) u = dGet m u := by
  induction us generalizing m with
  | nil => rfl
  | cons v vs ih =>
      have hv : u ≠ v := fun hh => hu (hh ▸ List.mem_cons_self _ _)
      simp only [List.foldl]
      rw [ih _ (fun hh => hu (List.mem_cons_of_mem _ hh)), addUserGroup,
        dGet_dSet_ne _ _ _ _ hv]

theorem dGet_foldl_groups (authz : List GroupRecord) (u : String)
    (m : List (String × List String)) (hu : ∀ g ∈ authz, u ∉ g.userids) :
    dGet (authz.foldl
        (fun m rec => rec.userids.foldl (fun m v => addUserGroup m rec.group_name v) m) m) u
      = dGet m u := by
  induction authz generalizing m with
  | nil => rfl
  | cons g gs ih =>
      simp only [List.foldl]
      rw [ih _ (fun g' hg' => hu g' (List.mem_cons_of_mem _ hg')),
        dGet_foldl_addUserGroup _ _ _ _ (hu g (List.mem_cons_self _ _))]

theorem dGet_buildGroupsMap_none (authz : List GroupRecord) (u : String)
    (hu : ∀ g ∈ authz, u ∉ g.userids) :
    dGet (buildGroupsMap authz) u = none := by
  rw [buildGroupsMap, dGet_foldl_groups authz u [] hu]
  rfl

theorem mem_foldr_userids (l : List GroupRecord) (u : String) :
    u ∈ l.foldr (fun g acc => g.userids ++ acc) [] ↔ ∃ g ∈ l, u ∈ g.userids := by
  induction l with
  | nil => simp
  | cons g gs ih => simp [List.mem_append, ih]

theorem mem_get_userids_in_groups (authz : List GroupRecord) (groups : List String)
    (u : String) :
    u ∈ get_userids_in_groups authz groups ↔
      ∃ g ∈ authz, g.group_name ∈ groups ∧ u ∈ g.userids := by
  rw [get_userids_in_groups, mem_foldr_userids]
  constructor
  · rintro ⟨g, hg, hu⟩
    rw [List.mem_filter] at hg
    exact ⟨g, hg.1, by simpa using hg.2, hu⟩
  · rintro ⟨g, hg, hgn, hu⟩
    exact ⟨g, List.mem_filter.mpr ⟨hg, by simpa using hgn⟩, hu⟩

theorem firstBadArb_spec (d : Doc) (k : String) (h : firstBadArb d = some k) :
    k ∉ TASK_FIELD_NAMES ∧ k ∉ INTERNAL_FIELDS ∧
      ∃ v, (k, v) ∈ d ∧ isStrV v = false := by
  rw [firstBadArb] at h
  cases hf : d.find? badArb with
  | none => rw [hf] at h; cases h
  | some p =>
      rw [hf] at h
      have hk : p.1 = k := by simpa using h
      have hmem := List.mem_of_find?_eq_some hf
      have hbad := List.find?_some hf
      rw [badArb] at hbad
      simp only [Bool.and_eq_true, Bool.not_eq_true', decide_eq_false_iff_not] at hbad
      refine ⟨hk ▸ hbad.1.1, hk ▸ hbad.1.2, p.2, ?_, hbad.2⟩
      have : (k, p.2) = p := by rw [← hk]
      rw [this]
      exact hmem

theorem firstBadArb_isSome (d : Doc) (h : ∃ p ∈ d, badArb p = true) :
    ∃ k, firstBadArb d = some k := by
  have hs := List.find?_isSome.mpr h
  cases hf : d.find? badArb with
  | none => rw [hf] at hs; cases hs
  | some p => exact ⟨p.1, by rw [firstBadArb, hf]; rfl⟩

/-! Branch equations for update_categories. -/

theorem update_categories_no_key (db : DB) (body : Doc) (hb : body ≠ [])
    (hc : dGet body "categories" = none) :
    update_categories db (some body) =
      (.errMsg 400 "Request body must contain a \x27categories\x27 key.", db) := by
  simp [update_categories, if_neg hb, dContains, hc]

theorem update_categories_not_list (db : DB) (body : Doc) (v : Value) (hb : body ≠ [])
    (hc : dGet body "categories" = some v) (hv : isListV v = false) :
    update_categories db (some body) =
      (.errMsg 400 "The \x27categories\x27 value must be a list.", db) := by
  simp [update_categories, if_neg hb, dContains, hc, hv]

theorem update_categories_bad_item (db : DB) (body : Doc) (items : List Atom)
    (hb : body ≠ []) (hc : dGet body "categories" = some (.vlist items))
    (hall : items.all Atom.isStr = false) :
    update_categories db (some body) =
      (.errMsg 400 "All items in the \x27categories\x27 list must be strings.", db) := by
  simp [update_categories, if_neg hb, dContains, hc, isListV, listItems, hall]

theorem update_categories_ok (db : DB) (body : Doc) (items : List Atom)
    (hb : body ≠ []) (hc : dGet body "categories" = some (.vlist items))
    (hall : items.all Atom.isStr = true) :
    update_categories db (some body) =
      (.okCat (if db.categories.isSome then 1 else 0),
       { db with categories := some body }) := by
  simp [update_categories, if_neg hb, dContains, hc, isListV, listItems, hall]

/-! Claim theorems. -/

/-- Claim C10: a request whose JSON body is the empty object is rejected with
status 400 and message "Request must be JSON" by create-task, modify-task, and
replace-categories, exactly as if the body were missing; in particular a modify
request cannot express an empty partial update, even though the empty document
satisfies Modify-mode validation. -/
theorem C10_empty_body_rejected :
    (∀ (db : DB) (fid : String) (t1 t2 : Nat),
        create_task db (some []) fid t1 t2 = (.errMsg 400 "Request must be JSON", db) ∧
        create_task db none fid t1 t2 = (.errMsg 400 "Request must be JSON", db)) ∧
    (∀ (db : DB) (tid : String) (t : Nat),
        modify_task db tid (some []) t = (.errMsg 400 "Request must be JSON", db) ∧
        modify_task db tid none t = (.errMsg 400 "Request must be JSON", db)) ∧
    (∀ (db : DB),
        update_categories db (some []) = (.errMsg 400 "Request must be JSON", db) ∧
        update_categories db none = (.errMsg 400 "Request must be JSON", db)) ∧
    validateTaskData [] false = .ok [] := by
  exact ⟨fun _ _ _ _ => ⟨rfl, rfl⟩, fun _ _ _ => ⟨rfl, rfl⟩, fun _ => ⟨rfl, rfl⟩, rfl⟩

/-- Claim C2 (code bug): on a document whose date field holds a non-string,
the validator does not terminate normally with one error for the date field:
the unconditional strptime call raises a TypeError that the source catches
only as ValueError, so the exception escapes the validator and the endpoints. -/
theorem C2_nonstring_date_raises :
    validateTaskData [("date", .vint 123)] false
      = .error "TypeError: strptime() argument 1 must be str, not int" ∧
    (modify_task ⟨[], none⟩ "T" (some [("date", .vint 123)]) 0).1
      = .raised "TypeError: strptime() argument 1 must be str, not int" ∧
    (create_task ⟨[], none⟩ (some [("userid", .vstr "u"), ("date", .vint 123),
        ("task_name", .vstr "n"), ("category", .vstr "c"), ("expected_hours", .vfloat 2)])
        "id1" 0 0).1
      = .raised "TypeError: strptime() argument 1 must be str, not int" := by
  exact ⟨rfl, rfl, rfl⟩

/-- Claim C1, counterexample: an unauthenticated caller resolves to guest with
groups Guests, the store holds a task owned by guest, yet the listing returns
the empty list — the caller's own userid is not added to the visible set, so
the caller does not "see only tasks owned by guest"; it sees none of them. -/
theorem C1_counterexample :
    get_auth_info_from_request [] [] none = ("guest", ["Guests"]) ∧
    list_tasks_endpoint ⟨[[("task_id", .vstr "g1"), ("userid", .vstr "guest")]], none⟩ [] [] none
      = .okTasks [] ∧
    dGet [("task_id", Value.vstr "g1"), ("userid", Value.vstr "guest")] "userid"
      = some (.vstr "guest") := by
  exact ⟨rfl, rfl, rfl⟩

/-- Claim C3, counterexample: created_at and updated_at come from two separate
clock reads, so when the reads differ (0 then 1) the fetched record has
updated_at ≠ created_at, against the claimed equality at creation time. -/
theorem C3_counterexample :
    (create_task ⟨[], none⟩ (some C3body) "id1" 0 1).1 = .created "id1" ∧
    findOne ((create_task ⟨[], none⟩ (some C3body) "id1" 0 1).2).tasks "id1" = some C3stored ∧
    dGet C3stored "updated_at" ≠ dGet C3stored "created_at" := by
  refine ⟨rfl, rfl, by decide⟩

/-- Claim C4, counterexample: a record with the given task_id exists, the body
passes validation, yet the response is 404 — the source keys the not-found
answer on modified_count, which is 0 here because the merge (task_name already
"x", updated_at already at clock value 5) changes nothing. -/
theorem C4_counterexample :
    findOne [[("task_id", .vstr "T"), ("task_name", .vstr "x"), ("updated_at", .vdatetime 5)]] "T"
      = some [("task_id", .vstr "T"), ("task_name", .vstr "x"), ("updated_at", .vdatetime 5)] ∧
    validateTaskData [("task_name", .vstr "x")] false = .ok [] ∧
    modify_task ⟨[[("task_id", .vstr "T"), ("task_name", .vstr "x"), ("updated_at", .vdatetime 5)]], none⟩
        "T" (some [("task_name", .vstr "x")]) 5
      = (.errMsg 404 (notFoundMsg "T"),
         ⟨[[("task_id", .vstr "T"), ("task_name", .vstr "x"), ("updated_at", .vdatetime 5)]], none⟩) := by
  exact ⟨rfl, rfl, rfl⟩

/-- Claim C5, counterexample: a body with an extra key besides categories is
accepted, and the whole body — extra key included — becomes the stored
singleton document, against the claimed exactly-one-key validation and the
claimed stored shape. -/
theorem C5_counterexample :
    update_categories ⟨[], none⟩ (some [("categories", .vlist [.astr "a"]), ("x", .vint 1)])
      = (.okCat 0, ⟨[], some [("categories", .vlist [.astr "a"]), ("x", .vint 1)]⟩) ∧
    ([("categories", Value.vlist [Atom.astr "a"]), ("x", Value.vint 1)] : Doc)
      ≠ [("categories", Value.vlist [Atom.astr "a"])] := by
  refine ⟨by decide, by decide⟩

/-- Claim C6, counterexample: two credential records share the token "tok";
the dict comprehension keeps the last record's userid, so the token resolves
to "u2", not the first record's "u1". -/
theorem C6_counterexample :
    get_userid_from_token (buildTokenMap [⟨"u1", "tok"⟩, ⟨"u2", "tok"⟩]) (some "tok") = "u2" ∧
    "u2" ≠ "u1" := by
  refine ⟨rfl, by decide⟩

/-- Claim C1 (amended): the list-tasks operation returns exactly the stored
records whose userid lies in the union, over the caller's resolved groups, of
those groups' member userids; the caller's own userid is not added to the
visible set, so it is visible only when some group of the caller's lists it. -/
theorem C1_visibility (db : DB) (creds : List AuthRecord) (authz : List GroupRecord)
    (header : Option String) :
    ∃ ts, list_tasks_endpoint db creds authz header = .okTasks ts ∧
      ∀ d, d ∈ ts ↔ d ∈ db.tasks ∧ ∃ u, dGet d "userid" = some (.vstr u) ∧
        ∃ g ∈ authz, g.group_name ∈ (get_auth_info_from_request creds authz header).2 ∧
          u ∈ g.userids := by
  refine ⟨_, rfl, fun d => ?_⟩
  rw [mongo_get_all_tasks, List.mem_filter]
  constructor
  · rintro ⟨hd, hp⟩
    refine ⟨hd, ?_⟩
    cases hg : dGet d "userid" with
    | none => rw [hg] at hp; simp at hp
    | some v =>
        rw [hg] at hp
        simp only [List.any_eq_true, decide_eq_true_eq] at hp
        obtain ⟨u, hu, hveq⟩ := hp
        subst hveq
        exact ⟨u, rfl, (mem_get_userids_in_groups _ _ _).mp hu⟩
  · rintro ⟨hd, u, hu, hex⟩
    refine ⟨hd, ?_⟩
    show (match dGet d "userid" with
      | some v => (get_userids_in_groups authz
          (get_auth_info_from_request creds authz header).2).any
            (fun u => decide (v = .vstr u))
      | none => false) = true
    rw [hu]
    simp only [List.any_eq_true, decide_eq_true_eq]
    exact ⟨u, (mem_get_userids_in_groups _ _ _).mpr hex, rfl⟩

/-- Claim C3 (amended): creating a task with a valid payload and then fetching
it by the returned task_id yields a record whose fields equal the submitted
fields plus the server-assigned task_id, created_at and updated_at; created_at
and updated_at come from two successive clock reads, so they are equal exactly
when those reads return the same instant. -/
theorem C3_roundtrip (db : DB) (data : Doc) (fid : String) (t1 t2 : Nat) (db' : DB)
    (h1 : create_task db (some data) fid t1 t2 = (.created fid, db'))
    (h2 : findOne db.tasks fid = none) :
    ∃ d, findOne db'.tasks fid = some d ∧
      dGet d "task_id" = some (.vstr fid) ∧
      dGet d "created_at" = some (.vdatetime t1) ∧
      dGet d "updated_at" = some (.vdatetime t2) ∧
      (∀ k, k ≠ "task_id" → k ≠ "created_at" → k ≠ "updated_at" → dGet d k = dGet data k) ∧
      (t1 = t2 → dGet d "updated_at" = dGet d "created_at") := by
  have hfid : dGet (newTaskDoc data fid t1 t2) "task_id" = some (.vstr fid) := by
    rw [newTaskDoc, dGet_dSet_ne _ _ _ _ (by decide), dGet_dSet_ne _ _ _ _ (by decide),
      dGet_dSet_self]
  have htasks : db'.tasks = db.tasks ++ [newTaskDoc data fid t1 t2] := by
    rw [create_task_eq] at h1
    by_cases hd : data = []
    · rw [if_pos hd] at h1
      exact absurd (congrArg Prod.fst h1) (by simp)
    · rw [if_neg hd] at h1
      cases hv : validateTaskData data true with
      | error e =>
          simp only [hv] at h1
          exact absurd (congrArg Prod.fst h1) (by simp)
      | ok errs =>
          simp only [hv] at h1
          by_cases he : errs ≠ []
          · rw [if_pos he] at h1
            exact absurd (congrArg Prod.fst h1) (by simp)
          · rw [if_neg he] at h1
            cases hb : firstBadArb (newTaskDoc data fid t1 t2) with
            | some k =>
                simp only [hb] at h1
                exact absurd (congrArg Prod.fst h1) (by simp)
            | none =>
                simp only [hb] at h1
                have := congrArg Prod.snd h1
                simp only at this
                rw [← this]
  refine ⟨newTaskDoc data fid t1 t2, ?_, hfid, ?_, ?_, ?_, ?_⟩
  · have h2' : List.find? (fun t => decide (dGet t "task_id" = some (Value.vstr fid)))
        db.tasks = none := h2
    rw [htasks, findOne, List.find?_append, h2']
    simp [List.find?, hfid]
  · rw [newTaskDoc, dGet_dSet_ne _ _ _ _ (by decide), dGet_dSet_self]
  · rw [newTaskDoc, dGet_dSet_self]
  · intro k hk1 hk2 hk3
    rw [newTaskDoc, dGet_dSet_ne _ _ _ _ hk3, dGet_dSet_ne _ _ _ _ hk2,
      dGet_dSet_ne _ _ _ _ hk1]
  · intro ht
    subst ht
    rw [newTaskDoc, dGet_dSet_self, dGet_dSet_ne _ _ _ _ (by decide), dGet_dSet_self]

/-- Witness for C3_roundtrip at a concrete valid payload with coinciding
clock reads. -/
theorem C3_roundtrip_witness :
    ∃ d, findOne ((create_task ⟨[], none⟩ (some C3body) "id1" 3 3).2).tasks "id1" = some d ∧
      dGet d "task_id" = some (.vstr "id1") ∧
      dGet d "created_at" = some (.vdatetime 3) ∧
      dGet d "updated_at" = some (.vdatetime 3) ∧
      (∀ k, k ≠ "task_id" → k ≠ "created_at" → k ≠ "updated_at" →
        dGet d k = dGet C3body k) ∧
      (3 = 3 → dGet d "updated_at" = dGet d "created_at") :=
  C3_roundtrip ⟨[], none⟩ C3body "id1" 3 3
    ((create_task ⟨[], none⟩ (some C3body) "id1" 3 3).2) (by decide) (by decide)

/-- Claim C4 (amended): a modify request whose body passes validation responds
success iff some stored record matches the URL task_id and the field merge
(updated_at included) actually changes it; it responds not found iff nothing
matched or the matched record is left unchanged by the merge — the source keys
this on the modified count, not the matched count. -/
theorem C4_modify_result (db : DB) (tid : String) (data : Doc) (t : Nat)
    (hne : data ≠ [])
    (hva : validateTaskData (dErase data "task_id") false = .ok [])
    (harb : firstBadArb (modDoc data t) = none) :
    ((modify_task db tid (some data) t).1 = .okUpd tid ↔
      ∃ d, findOne db.tasks tid = some d ∧ dMerge d (modDoc data t) ≠ d) ∧
    ((modify_task db tid (some data) t).1 = .errMsg 404 (notFoundMsg tid) ↔
      (findOne db.tasks tid = none ∨
       ∃ d, findOne db.tasks tid = some d ∧ dMerge d (modDoc data t) = d)) := by
  rw [modify_task_eq, if_neg hne]
  simp only [hva, ne_eq, not_true_eq_false, if_false, harb]
  by_cases hz : (updateOneAux db.tasks tid (modDoc data t)).1 = 0
  · rw [if_pos hz]
    have hiff := (updateOneAux_zero_iff db.tasks tid (modDoc data t)).mp hz
    constructor
    · refine iff_of_false (by simp) ?_
      rintro ⟨d, hd, hmne⟩
      rcases hiff with hnone | ⟨d', hd', hme⟩
      · rw [hd] at hnone; cases hnone
      · rw [hd] at hd'
        injection hd' with he
        exact hmne (he ▸ hme)
    · exact iff_of_true rfl hiff
  · rw [if_neg hz]
    have hiff' : ¬ (findOne db.tasks tid = none ∨
        ∃ d, findOne db.tasks tid = some d ∧ dMerge d (modDoc data t) = d) :=
      fun h => hz ((updateOneAux_zero_iff db.tasks tid (modDoc data t)).mpr h)
    constructor
    · refine iff_of_true rfl ?_
      cases hf : findOne db.tasks tid with
      | none => exact absurd (Or.inl hf) hiff'
      | some d => exact ⟨d, rfl, fun heq => hiff' (Or.inr ⟨d, hf, heq⟩)⟩
    · exact iff_of_false (by simp) hiff'

/-- Witness for C4_modify_result on a one-record store and a body that changes
the record. -/
theorem C4_modify_result_witness :
    ((modify_task ⟨[[("task_id", .vstr "T"), ("task_name", .vstr "x")]], none⟩ "T"
        (some [("task_name", .vstr "y")]) 7).1 = .okUpd "T" ↔
      ∃ d, findOne [[("task_id", .vstr "T"), ("task_name", .vstr "x")]] "T" = some d ∧
        dMerge d (modDoc [("task_name", .vstr "y")] 7) ≠ d) ∧
    ((modify_task ⟨[[("task_id", .vstr "T"), ("task_name", .vstr "x")]], none⟩ "T"
        (some [("task_name", .vstr "y")]) 7).1 = .errMsg 404 (notFoundMsg "T") ↔
      (findOne [[("task_id", .vstr "T"), ("task_name", .vstr "x")]] "T" = none ∨
       ∃ d, findOne [[("task_id", .vstr "T"), ("task_name", .vstr "x")]] "T" = some d ∧
         dMerge d (modDoc [("task_name", .vstr "y")] 7) = d)) :=
  C4_modify_result ⟨[[("task_id", .vstr "T"), ("task_name", .vstr "x")]], none⟩ "T"
    [("task_name", .vstr "y")] 7 (by decide) rfl rfl

/-- Claim C5 (amended): the replace-categories operation succeeds, storing the
entire request body as the new singleton document, exactly when the body is a
nonempty object whose categories key holds a list of strings; extra keys are
not rejected (they are stored too), and every rejection leaves the store
unchanged. -/
theorem C5_categories_replace (db : DB) (body : Doc) :
    ((∃ m db2, update_categories db (some body) = (.okCat m, db2) ∧
        db2.categories = some body) ↔
      (body ≠ [] ∧ ∃ l, dGet body "categories" = some (.vlist l) ∧
        l.all Atom.isStr = true)) ∧
    (∀ r db2, update_categories db (some body) = (r, db2) →
      (∃ m, r = .okCat m) ∨ db2 = db) := by
  by_cases hb : body = []
  · subst hb
    refine ⟨iff_of_false ?_ ?_, ?_⟩
    · rintro ⟨m, db2, h, _⟩
      exact Resp.noConfusion (congrArg Prod.fst h)
    · rintro ⟨hne, _⟩
      exact hne rfl
    · intro r db2 h
      exact Or.inr (congrArg Prod.snd h).symm
  · constructor
    · constructor
      · rintro ⟨m, db2, h, hcat⟩
        cases hcg : dGet body "categories" with
        | none =>
            rw [update_categories_no_key db body hb hcg] at h
            exact absurd (congrArg Prod.fst h) (by simp)
        | some v =>
            by_cases hl : ∃ items, v = Value.vlist items
            · obtain ⟨items, rfl⟩ := hl
              cases hall : items.all Atom.isStr with
              | false =>
                  rw [update_categories_bad_item db body items hb hcg hall] at h
                  exact absurd (congrArg Prod.fst h) (by simp)
              | true => exact ⟨hb, items, rfl, hall⟩
            · have hv : isListV v = false := by
                cases v <;> first | rfl | exact absurd ⟨_, rfl⟩ hl
              rw [update_categories_not_list db body v hb hcg hv] at h
              exact absurd (congrArg Prod.fst h) (by simp)
      · rintro ⟨hne, l, hl, hall⟩
        rw [update_categories_ok db body l hb hl hall]
        exact ⟨_, _, rfl, rfl⟩
    · intro r db2 h
      cases hcg : dGet body "categories" with
      | none =>
          rw [update_categories_no_key db body hb hcg] at h
          exact Or.inr (congrArg Prod.snd h).symm
      | some v =>
          by_cases hl : ∃ items, v = Value.vlist items
          · obtain ⟨items, rfl⟩ := hl
            cases hall : items.all Atom.isStr with
            | false =>
                rw [update_categories_bad_item db body items hb hcg hall] at h
                exact Or.inr (congrArg Prod.snd h).symm
            | true =>
                rw [update_categories_ok db body items hb hcg hall] at h
                exact Or.inl ⟨_, (congrArg Prod.fst h).symm⟩
          · have hv : isListV v = false := by
              cases v <;> first | rfl | exact absurd ⟨_, rfl⟩ hl
            rw [update_categories_not_list db body v hb hcg hv] at h
            exact Or.inr (congrArg Prod.snd h).symm

/-- Claim C6 (amended): when credential records share an authToken, resolving
that token returns the userid of the last such record in the list — the dict
comprehension overwrites earlier entries — not the first. -/
theorem C6_duplicate_token_last_wins (creds : List AuthRecord) (t : String) (r : AuthRecord)
    (ht : t ≠ "")
    (hfind : creds.reverse.find? (fun c => decide (c.auth_token = t)) = some r) :
    get_userid_from_token (buildTokenMap creds) (some t) = r.userid := by
  simp only [get_userid_from_token, if_neg ht]
  rw [buildTokenMap_last, hfind]
  rfl

/-- Witness for C6_duplicate_token_last_wins on a duplicated token. -/
theorem C6_duplicate_token_last_wins_witness :
    get_userid_from_token (buildTokenMap [⟨"u1", "tok"⟩, ⟨"u2", "tok"⟩]) (some "tok")
      = (AuthRecord.mk "u2" "tok").userid :=
  C6_duplicate_token_last_wins [⟨"u1", "tok"⟩, ⟨"u2", "tok"⟩] "tok" ⟨"u2", "tok"⟩
    (by decide) rfl

/-- Claim C7: a request whose bearer token is absent, empty, or unknown
resolves to userid guest, and any userid outside the membership list resolves
to groups exactly Guests. -/
theorem C7_guest_fallback (creds : List AuthRecord) (authz : List GroupRecord)
    (header : Option String) (u : String)
    (htok : extract_token header = none ∨ extract_token header = some "" ∨
            ∀ c ∈ creds, some c.auth_token ≠ extract_token header)
    (hu : ∀ g ∈ authz, u ∉ g.userids) :
    (get_auth_info_from_request creds authz header).1 = "guest" ∧
    get_groups_from_userid (buildGroupsMap authz) u = ["Guests"] := by
  constructor
  · show get_userid_from_token (buildTokenMap creds) (extract_token header) = "guest"
    rcases htok with h | h | h
    · rw [h]
      rfl
    · rw [h]
      rfl
    · cases he : extract_token header with
      | none => rfl
      | some tk =>
          rw [he] at h
          by_cases ht : tk = ""
          · subst ht
            rfl
          · have hnone : dGet (buildTokenMap creds) tk = none := by
              rw [buildTokenMap_last]
              have hf : creds.reverse.find? (fun c => decide (c.auth_token = tk)) = none := by
                rw [List.find?_eq_none]
                intro c hc
                simp only [decide_eq_true_eq]
                exact fun hcc => (h c (List.mem_reverse.mp hc)) (by rw [hcc])
              rw [hf]
              rfl
            simp only [get_userid_from_token, if_neg ht, hnone]
            rfl
  · rw [get_groups_from_userid]
    by_cases hue : u = ""
    · rw [if_pos hue]
    · rw [if_neg hue, dGet_buildGroupsMap_none authz u hu]
      rfl

/-- Witness for C7_guest_fallback: no header, a membership list that does not
mention guest. -/
theorem C7_guest_fallback_witness :
    (get_auth_info_from_request [] [⟨"G1", ["dana"]⟩] none).1 = "guest" ∧
    get_groups_from_userid (buildGroupsMap [⟨"G1", ["dana"]⟩]) "guest" = ["Guests"] :=
  C7_guest_fallback [] [⟨"G1", ["dana"]⟩] none "guest" (Or.inl rfl) (by decide)

/-- Claim C8: on both create and modify, a key outside the schema and outside
created_at / updated_at whose value is not a string makes the endpoint reject
with the single top-level message naming that key; the server-assigned
timestamps themselves never trigger the check. -/
theorem C8_arbitrary_attribute (db : DB) (data : Doc) (fid tid : String) (t1 t2 t : Nat)
    (hne : data ≠ [])
    (hv : validateTaskData data true = .ok [])
    (hm : validateTaskData (dErase data "task_id") false = .ok []) :
    (∀ k, firstBadArb (newTaskDoc data fid t1 t2) = some k →
        (create_task db (some data) fid t1 t2).1 = .errMsg 400 (arbMsg k) ∧
        k ∉ TASK_FIELD_NAMES ∧ k ∉ INTERNAL_FIELDS ∧
        ∃ v, (k, v) ∈ newTaskDoc data fid t1 t2 ∧ isStrV v = false) ∧
    ((∃ p ∈ newTaskDoc data fid t1 t2, badArb p = true) →
        ∃ k, firstBadArb (newTaskDoc data fid t1 t2) = some k) ∧
    (∀ k, firstBadArb (modDoc data t) = some k →
        (modify_task db tid (some data) t).1 = .errMsg 400 (arbMsg k) ∧
        k ∉ TASK_FIELD_NAMES ∧ k ∉ INTERNAL_FIELDS ∧
        ∃ v, (k, v) ∈ modDoc data t ∧ isStrV v = false) ∧
    ((∃ p ∈ modDoc data t, badArb p = true) →
        ∃ k, firstBadArb (modDoc data t) = some k) := by
  refine ⟨fun k hk => ⟨?_, firstBadArb_spec _ k hk⟩, firstBadArb_isSome _,
    fun k hk => ⟨?_, firstBadArb_spec _ k hk⟩, firstBadArb_isSome _⟩
  · rw [create_task_eq, if_neg hne]
    simp only [hv, ne_eq, not_true_eq_false, if_false, hk]
  · rw [modify_task_eq, if_neg hne]
    simp only [hm, ne_eq, not_true_eq_false, if_false, hk]

/-- Witness for C8_arbitrary_attribute on a payload with a non-string
extension field. -/
theorem C8_arbitrary_attribute_witness :
    (∀ k, firstBadArb (newTaskDoc C8data "id1" 0 0) = some k →
        (create_task ⟨[], none⟩ (some C8data) "id1" 0 0).1 = .errMsg 400 (arbMsg k) ∧
        k ∉ TASK_FIELD_NAMES ∧ k ∉ INTERNAL_FIELDS ∧
        ∃ v, (k, v) ∈ newTaskDoc C8data "id1" 0 0 ∧ isStrV v = false) ∧
    ((∃ p ∈ newTaskDoc C8data "id1" 0 0, badArb p = true) →
        ∃ k, firstBadArb (newTaskDoc C8data "id1" 0 0) = some k) ∧
    (∀ k, firstBadArb (modDoc C8data 1) = some k →
        (modify_task ⟨[], none⟩ "T" (some C8data) 1).1 = .errMsg 400 (arbMsg k) ∧
        k ∉ TASK_FIELD_NAMES ∧ k ∉ INTERNAL_FIELDS ∧
        ∃ v, (k, v) ∈ modDoc C8data 1 ∧ isStrV v = false) ∧
    ((∃ p ∈ modDoc C8data 1, badArb p = true) →
        ∃ k, firstBadArb (modDoc C8data 1) = some k) :=
  C8_arbitrary_attribute ⟨[], none⟩ C8data "id1" "T" 0 0 1 (by decide) rfl rfl

/-- Claim C9: a client-supplied task_id in a modify body is dropped before
validation (the request behaves exactly as if the key were absent and is never
an error on its account), the update is keyed only by the URL task_id, and no
stored record's task_id is changed by the operation. -/
theorem C9_body_taskid_ignored (db : DB) (tid : String) (data : Doc) (v : Value) (t : Nat)
    (hne : dErase data "task_id" ≠ []) :
    modify_task db tid (some (dSet data "task_id" v)) t
      = modify_task db tid (some (dErase data "task_id")) t ∧
    (∀ r db2, modify_task db tid (some data) t = (r, db2) →
      db2.tasks.map (fun d => dGet d "task_id")
        = db.tasks.map (fun d => dGet d "task_id")) := by
  constructor
  · rw [modify_task_eq, modify_task_eq, if_neg (dSet_ne_nil data "task_id" v), if_neg hne]
    rw [modDoc, modDoc, dErase_dSet, dErase_dErase]
  · intro r db2 h
    rw [modify_task_eq] at h
    by_cases hd : data = []
    · rw [if_pos hd] at h
      injection h with h1 h2
      rw [← h2]
    · rw [if_neg hd] at h
      cases hv : validateTaskData (dErase data "task_id") false with
      | error e =>
          simp only [hv] at h
          injection h with h1 h2
          rw [← h2]
      | ok errs =>
          simp only [hv] at h
          by_cases he : errs ≠ []
          · rw [if_pos he] at h
            injection h with h1 h2
            rw [← h2]
          · rw [if_neg he] at h
            cases hbb : firstBadArb (modDoc data t) with
            | some k =>
                simp only [hbb] at h
                injection h with h1 h2
                rw [← h2]
            | none =>
                simp only [hbb] at h
                have hkey : dGet (modDoc data t) "task_id" = none := by
                  rw [modDoc, dGet_dSet_ne _ _ _ _ (by decide), dGet_dErase_self]
                by_cases hz : (updateOneAux db.tasks tid (modDoc data t)).1 = 0
                · rw [if_pos hz] at h
                  injection h with h1 h2
                  rw [← h2]
                  exact updateOneAux_map_key db.tasks tid _ "task_id" hkey
                · rw [if_neg hz] at h
                  injection h with h1 h2
                  rw [← h2]
                  exact updateOneAux_map_key db.tasks tid _ "task_id" hkey

/-- Witness for C9_body_taskid_ignored on a one-field body with a bogus
task_id. -/
theorem C9_body_taskid_ignored_witness :
    modify_task ⟨[], none⟩ "T"
        (some (dSet [("task_name", Value.vstr "n")] "task_id" (Value.vstr "ZZ"))) 1
      = modify_task ⟨[], none⟩ "T"
          (some (dErase [("task_name", Value.vstr "n")] "task_id")) 1 ∧
    (∀ r db2, modify_task ⟨[], none⟩ "T" (some [("task_name", Value.vstr "n")]) 1 = (r, db2) →
      db2.tasks.map (fun d => dGet d "task_id")
        = (DB.mk [] none).tasks.map (fun d => dGet d "task_id")) :=
  C9_body_taskid_ignored ⟨[], none⟩ "T" [("task_name", Value.vstr "n")] (Value.vstr "ZZ") 1
    (by decide)

end Tmtrack
